import Mathlib

/-!
Verification development for the stock-ranker repository.

The numeric pipeline of `utils/indicators.py` and the orchestration of
`tmv_updater.py` / `app.py` are shallowly embedded over exact rationals
(`ℚ`).  Decimal literals of the Python source (floats) are idealised to
the exact rationals they denote; Python's banker rounding `round(x, 2)`
is modelled exactly by `roundHE`/`round2` below.  The only irrational
primitive in the whole pipeline, the square root inside the rolling
standard deviation of `_bbands`, is abstracted as an explicit function
parameter `sq : ℚ → ℚ`; every theorem quantifies over it.
-/

/-- Computable binary min on `ℚ` (the lattice `min` of Mathlib does not
reduce inside the kernel). -/
def minQ (a b : ℚ) : ℚ := if a ≤ b then a else b

/-- Computable binary max on `ℚ`. -/
def maxQ (a b : ℚ) : ℚ := if a ≤ b then b else a

/-- Computable absolute value on `ℚ`. -/
def absQ (a : ℚ) : ℚ := if a < 0 then -a else a

theorem minQ_eq_min (a b : ℚ) : minQ a b = min a b := by
  unfold minQ
  split <;> rename_i h
  · exact (min_eq_left h).symm
  · exact (min_eq_right (le_of_not_le h)).symm

theorem maxQ_eq_max (a b : ℚ) : maxQ a b = max a b := by
  unfold maxQ
  split <;> rename_i h
  · exact (max_eq_right h).symm
  · exact (max_eq_left (le_of_not_le h)).symm

theorem absQ_eq_abs (a : ℚ) : absQ a = |a| := by
  unfold absQ
  split <;> rename_i h
  · exact (abs_of_neg h).symm
  · exact (abs_of_nonneg (le_of_not_lt h)).symm

/-- Python `utils.indicators._clip(x, lo, hi) = max(lo, min(hi, x))`. -/
def clip (x lo hi : ℚ) : ℚ := maxQ lo (minQ hi x)

theorem clip_eq (x lo hi : ℚ) : clip x lo hi = max lo (min hi x) := by
  unfold clip
  rw [minQ_eq_min, maxQ_eq_max]

theorem le_clip (x lo hi : ℚ) : lo ≤ clip x lo hi := by
  rw [clip_eq]
  exact le_max_left _ _

theorem clip_le (x lo hi : ℚ) (h : lo ≤ hi) : clip x lo hi ≤ hi := by
  rw [clip_eq]
  exact max_le h (min_le_left _ _)

theorem clip_of_bounds (x lo hi : ℚ) (h1 : lo ≤ x) (h2 : x ≤ hi) :
    clip x lo hi = x := by
  rw [clip_eq, min_eq_right h2, max_eq_right h1]

/-- Round to the nearest integer, ties to even: the rounding used by
Python's builtin `round` (on exact ties).  `Rat.floor` is used instead
of `⌊·⌋` so that the function evaluates inside the kernel. -/
def roundHE (q : ℚ) : ℤ :=
  if q - q.floor = 1/2 then (if q.floor % 2 = 0 then q.floor else q.floor + 1)
  else (q + 1/2).floor

/-- Python `round(x, 2)` in exact arithmetic. -/
def round2 (q : ℚ) : ℚ := (roundHE (100 * q) : ℚ) / 100

theorem rat_floor_eq_floor (q : ℚ) : q.floor = ⌊q⌋ := by
  rw [Rat.floor_def', Rat.floor_def]

theorem roundHE_eq (q : ℚ) :
    roundHE q =
      if q - ⌊q⌋ = 1/2 then (if ⌊q⌋ % 2 = 0 then ⌊q⌋ else ⌊q⌋ + 1) else ⌊q + 1/2⌋ := by
  unfold roundHE
  rw [rat_floor_eq_floor, rat_floor_eq_floor]

theorem floor_le_roundHE (q : ℚ) : ⌊q⌋ ≤ roundHE q := by
  rw [roundHE_eq]
  split
  · split
    · exact le_refl _
    · omega
  · exact Int.floor_mono (by linarith)

theorem int_le_roundHE (i : ℤ) (q : ℚ) (h : (i : ℚ) ≤ q) : i ≤ roundHE q :=
  le_trans (Int.le_floor.mpr h) (floor_le_roundHE q)

theorem roundHE_le_int (i : ℤ) (q : ℚ) (h : q ≤ (i : ℚ)) : roundHE q ≤ i := by
  rw [roundHE_eq]
  split
  · rename_i hfrac
    have hf : (⌊q⌋ : ℚ) + 1/2 ≤ (i : ℚ) := by linarith
    have : (⌊q⌋ : ℚ) < (i : ℚ) := by linarith
    have hlt : ⌊q⌋ < i := by exact_mod_cast this
    split <;> omega
  · have : ⌊q + 1/2⌋ ≤ ⌊(i : ℚ) + 1/2⌋ := Int.floor_mono (by linarith)
    have heq : ⌊(i : ℚ) + 1/2⌋ = i := by
      rw [add_comm, Int.floor_add_int]
      norm_num
    omega

theorem round2_ge (i : ℤ) (q : ℚ) (h : (i : ℚ)/100 ≤ q) :
    (i : ℚ)/100 ≤ round2 q := by
  unfold round2
  have h1 : (i : ℚ) ≤ 100 * q := by linarith
  have h2 : (i : ℚ) ≤ (roundHE (100 * q) : ℚ) := by
    exact_mod_cast int_le_roundHE i (100 * q) h1
  linarith

theorem round2_le (i : ℤ) (q : ℚ) (h : q ≤ (i : ℚ)/100) :
    round2 q ≤ (i : ℚ)/100 := by
  unfold round2
  have h1 : 100 * q ≤ (i : ℚ) := by linarith
  have h2 : (roundHE (100 * q) : ℚ) ≤ (i : ℚ) := by
    exact_mod_cast roundHE_le_int i (100 * q) h1
  linarith

theorem roundHE_intCast (k : ℤ) : roundHE (k : ℚ) = k := by
  rw [roundHE_eq]
  rw [Int.floor_intCast]
  have hne : (k : ℚ) - (k : ℚ) ≠ 1/2 := by norm_num
  rw [if_neg hne, add_comm, Int.floor_add_int]
  norm_num

/-- A value with at most two decimals is unchanged by `round2`. -/
theorem round2_two_decimals (k : ℤ) : round2 ((k : ℚ)/100) = (k : ℚ)/100 := by
  unfold round2
  have : (100 : ℚ) * ((k : ℚ)/100) = (k : ℚ) := by ring
  rw [this, roundHE_intCast]

/-!
Series primitives.  A pandas series is modelled as `List (Option ℚ)`;
`none` models NaN.  The cleaned OHLC columns are NaN-free, so NaN only
arises from the indicator computations themselves (leading windows of
`min_periods`, and guarded divisions: pandas yields NaN on `x.replace(0,
nan)` denominators, and `0/0` is NaN; a nonzero numerator over a zero
denominator never occurs in this pipeline, see the comments at the use
sites).
-/

/-- A pandas series: `none` is NaN. -/
def Ser : Type := List (Option ℚ)

/-- Elementwise binary operation (NaN-propagating), e.g. series `+`/`-`/`*`. -/
def serMap2 (f : ℚ → ℚ → ℚ) (a b : Ser) : Ser :=
  List.zipWith (Option.map₂ f) a b

/-- Elementwise unary operation (NaN-propagating). -/
def serMap (f : ℚ → ℚ) (a : Ser) : Ser := a.map (Option.map f)

/-- Elementwise division; a zero denominator yields NaN.  (pandas gives
NaN for `0/0`; every division in this pipeline is either guarded through
`.replace(0, nan)` or has a numerator that vanishes together with the
denominator.) -/
def serDiv (a b : Ser) : Ser :=
  List.zipWith (fun x y =>
    match x, y with
    | some p, some q => if q = 0 then none else some (p / q)
    | _, _ => none) a b

/-- pandas `.replace(0, np.nan)`. -/
def serReplace0 (a : Ser) : Ser :=
  a.map (fun o => o.bind (fun q => if q = 0 then none else some q))

/-- pandas `.diff()`: first entry NaN, then successive differences. -/
def serDiff (a : Ser) : Ser :=
  match a with
  | [] => []
  | x :: xs => none :: List.zipWith (Option.map₂ (fun p q => p - q)) xs (x :: xs)

/-- pandas `.shift(1)`. -/
def serShift1 (a : Ser) : Ser :=
  match a with
  | [] => []
  | x :: xs => none :: (x :: xs).dropLast

/-- pandas `.fillna(c)`. -/
def serFillna (c : ℚ) (a : Ser) : Ser := a.map (fun o => some (o.getD c))

/-- pandas `.cumsum()` over a NaN-free series (used only after `fillna`). -/
def serCumsum (a : Ser) : Ser :=
  (a.foldl (fun (st : ℚ × List ℚ) o =>
    let s := st.1 + o.getD 0
    (s, s :: st.2)) (0, [])).2.reverse.map some

/-- One step of pandas `ewm(adjust=False, ignore_na=False)`: the state is
`(validCount, none-or-(numerator, denominator))`. -/
def ewmStep (al : ℚ) (st : ℕ × Option (ℚ × ℚ)) (x : Option ℚ) :
    ℕ × Option (ℚ × ℚ) :=
  match x, st.2 with
  | none, none => (st.1, none)
  | none, some (n, d) => (st.1, some ((1 - al) * n, (1 - al) * d))
  | some v, none => (st.1 + 1, some (v, 1))
  | some v, some (n, d) => (st.1 + 1, some ((1 - al) * n + al * v, (1 - al) * d + al))

def ewmGo (al : ℚ) (minp : ℕ) : List (Option ℚ) → (ℕ × Option (ℚ × ℚ)) → List (Option ℚ)
  | [], _ => []
  | x :: xs, st =>
    let st2 := ewmStep al st x
    let out : Option ℚ :=
      match st2.2 with
      | none => none
      | some (n, d) => if minp ≤ st2.1 then some (n / d) else none
    out :: ewmGo al minp xs st2

/-- pandas `.ewm(alpha=al, adjust=False, min_periods=minp).mean()`. -/
def ewmMean (al : ℚ) (minp : ℕ) (a : Ser) : Ser := ewmGo al minp a (0, none)

/-- Window ending at index `i` of width at most `w` (pandas rolling). -/
def rollWin (w : ℕ) (a : Ser) (i : ℕ) : List ℚ :=
  ((a.take (i + 1)).drop (i + 1 - w)).filterMap id

/-- pandas `.rolling(w, min_periods=minp).agg(f)`: `f` is applied to the
non-NaN entries of the window when there are at least `minp` of them. -/
def rollingApply (w minp : ℕ) (f : List ℚ → ℚ) (a : Ser) : Ser :=
  (List.range a.length).map (fun i =>
    let vals := rollWin w a i
    if minp ≤ vals.length then some (f vals) else none)

def meanQ (l : List ℚ) : ℚ := l.sum / l.length

/-- Sample variance (`ddof=1`), the square of pandas `.std()`. -/
def varQ (l : List ℚ) : ℚ :=
  if l.length ≤ 1 then 0
  else (l.map (fun x => (x - meanQ l) ^ 2)).sum / (l.length - 1 : ℕ)

/-- `utils.indicators._safe_last`: last non-NaN value. -/
def safeLast (a : Ser) : Option ℚ := (a.filterMap id).getLast?

/-- Python `x or d` on an optional float: `None` and `0.0` are falsy. -/
def orFalsy (o : Option ℚ) (d : ℚ) : ℚ :=
  match o with
  | none => d
  | some v => if v = 0 then d else v

/-- `utils.indicators._slope_last`: least-squares slope of the last
`lookback` non-NaN values. -/
def slopeLast (a : Ser) (lookback : ℕ) : Option ℚ :=
  let v := a.filterMap id
  if v.length < lookback then none
  else
    let y := v.drop (v.length - lookback)
    let n := y.length
    let xbar : ℚ := ((n - 1 : ℕ) : ℚ) / 2
    let ybar := meanQ y
    let denom := ((List.range n).map (fun i => ((i : ℚ) - xbar) ^ 2)).sum
    if denom = 0 then none
    else some (((List.zipWith (fun i yi => ((i : ℚ) - xbar) * (yi - ybar))
      (List.range n) y).sum) / denom)

/-- `utils.indicators._pct_rank`: fraction of non-NaN entries `≤ value`
(`0.5` when fewer than 10 entries). -/
def pctRank (a : Ser) (value : ℚ) : ℚ :=
  let v := a.filterMap id
  if v.length < 10 then 1/2
  else ((v.countP (fun x => x ≤ value)) : ℚ) / v.length

/-- `delta_now_prev` in `calculate_scores`: mean of the last `k` non-NaN
values minus the mean of the `k` before them (0 when fewer than `2k`). -/
def deltaNowPrev (a : Ser) (k : ℕ) : ℚ :=
  let v := a.filterMap id
  if v.length < 2 * k then 0
  else
    let nw := v.drop (v.length - k)
    let pv := (v.take (v.length - k)).drop (v.length - 2 * k)
    meanQ nw - meanQ pv

/-- pandas `.tail(n)`. -/
def serTail (n : ℕ) (a : Ser) : Ser := a.drop (a.length - n)

/-!
Indicator library (`utils/indicators.py`, `_ema` .. `_bbands`).
-/

/-- `_ema(s, span)`: `ewm(span=span, adjust=False, min_periods=span)`,
so `alpha = 2/(span+1)`. -/
def emaI (a : Ser) (span : ℕ) : Ser := ewmMean (2 / ((span : ℚ) + 1)) span a

/-- `_sma(s, window)`: `rolling(window, min_periods=window).mean()`. -/
def smaI (a : Ser) (window : ℕ) : Ser := rollingApply window window meanQ a

/-- `_rsi(close, period)`. -/
def rsiI (close : Ser) (period : ℕ) : Ser :=
  let dl := serDiff close
  let gain := serMap (fun x => maxQ x 0) dl
  let loss := serMap (fun x => maxQ (-x) 0) dl
  let avgGain := ewmMean (1 / (period : ℚ)) period gain
  let avgLoss := ewmMean (1 / (period : ℚ)) period loss
  let rs := serDiv avgGain (serReplace0 avgLoss)
  serMap (fun r => 100 - 100 / (1 + r)) rs

/-- `_true_range(high, low, close)`: row max of `|h-l|`, `|h-pc|`,
`|l-pc|`; pandas `max(axis=1)` skips NaN, so the first row is `|h-l|`. -/
def trueRangeI (high low close : Ser) : Ser :=
  let pc := serShift1 close
  List.zipWith (fun (hl : Option (ℚ × ℚ)) (pcv : Option ℚ) =>
    match hl, pcv with
    | some (h, l), some c => some (maxQ (absQ (h - l)) (maxQ (absQ (h - c)) (absQ (l - c))))
    | some (h, l), none => some (absQ (h - l))
    | none, _ => none)
    (List.zipWith (Option.map₂ (fun h l => (h, l))) high low) pc

/-- `_atr(high, low, close, period)`. -/
def atrI (high low close : Ser) (period : ℕ) : Ser :=
  ewmMean (1 / (period : ℚ)) period (trueRangeI high low close)

/-- `_macd(close, fast, slow, signal)` returning (line, signal, hist). -/
def macdI (close : Ser) (fast slow signal : ℕ) : Ser × Ser × Ser :=
  let emaFast := emaI close fast
  let emaSlow := emaI close slow
  let line := serMap2 (fun a b => a - b) emaFast emaSlow
  let sig := ewmMean (2 / ((signal : ℚ) + 1)) signal line
  let hist := serMap2 (fun a b => a - b) line sig
  (line, sig, hist)

/-- `np.where((up > down) & (up > 0), up, 0.0)`: NaN comparisons are
false, so NaN rows give `0.0`. -/
def dmPlus (up down : Ser) : Ser :=
  List.zipWith (fun u d =>
    match u, d with
    | some uv, some dv => some (if uv > dv ∧ uv > 0 then uv else 0)
    | _, _ => some 0) up down

/-- `_adx(high, low, close, period)` returning (adx, +DI, -DI).  A zero
ATR forces a zero DM numerator (constant prices), so the `none` of
`serDiv` coincides with the pandas NaN of `0/0`. -/
def adxI (high low close : Ser) (period : ℕ) : Ser × Ser × Ser :=
  let upMove := serDiff high
  let downMove := serMap (fun x => -x) (serDiff low)
  let plusDm := dmPlus upMove downMove
  let minusDm := dmPlus downMove upMove
  let tr := trueRangeI high low close
  let atr := ewmMean (1 / (period : ℚ)) period tr
  let plusDi := serDiv (serMap (fun x => 100 * x)
    (ewmMean (1 / (period : ℚ)) period plusDm)) atr
  let minusDi := serDiv (serMap (fun x => 100 * x)
    (ewmMean (1 / (period : ℚ)) period minusDm)) atr
  let dx := serDiv (serMap (fun x => 100 * absQ x) (serMap2 (fun a b => a - b) plusDi minusDi))
    (serReplace0 (serMap2 (fun a b => a + b) plusDi minusDi))
  let adx := ewmMean (1 / (period : ℚ)) period dx
  (adx, plusDi, minusDi)

/-- `_obv(close, volume)`. -/
def obvI (close volume : Ser) : Ser :=
  let direction := serFillna 0 (serMap (fun x => if x > 0 then 1 else if x < 0 then -1 else 0)
    (serDiff close))
  serCumsum (serFillna 0 (serMap2 (fun a b => a * b) direction volume))

/-- `raw_mf.where(cond, 0.0)` with a NaN condition treated as false. -/
def whereDiffPos (rawMf tpDiff : Ser) : Ser :=
  List.zipWith (fun m c =>
    match m, c with
    | some mv, some cv => some (if cv > 0 then mv else 0)
    | some _, none => some 0
    | none, _ => none) rawMf tpDiff

/-- `_mfi(high, low, close, volume, period)`. -/
def mfiI (high low close volume : Ser) (period : ℕ) : Ser :=
  let tp := serMap (fun a => a / 3) (serMap2 (fun a b => a + b)
    (serMap2 (fun a b => a + b) high low) close)
  let rawMf := serMap2 (fun a b => a * b) tp volume
  let tpd := serDiff tp
  let posMf := whereDiffPos rawMf tpd
  let negMf := serMap (fun x => absQ x) (whereDiffPos rawMf (serMap (fun x => -x) tpd))
  let posSum := rollingApply period period List.sum posMf
  let negSum := serReplace0 (rollingApply period period List.sum negMf)
  let mfr := serDiv posSum negSum
  serMap (fun r => 100 - 100 / (1 + r)) mfr

/-- `_bbands(close, period, mult)` returning (lower, mid, upper, width);
`sq` abstracts the square root inside pandas `.std()` (the only
irrational primitive of the pipeline). -/
def bbandsI (sq : ℚ → ℚ) (close : Ser) (period : ℕ) (mult : ℚ) :
    Ser × Ser × Ser × Ser :=
  let mid := smaI close period
  let std := rollingApply period period (fun l => sq (varQ l)) close
  let upper := serMap2 (fun m s => m + mult * s) mid std
  let lower := serMap2 (fun m s => m - mult * s) mid std
  let width := serDiv (serMap2 (fun a b => a - b) upper lower) (serReplace0 mid)
  (lower, mid, upper, width)

/-!
The scoring engine `calculate_scores` (`utils/indicators.py`).

A raw input frame carries column-presence flags (to model the
`required.issubset(df.columns)` check) and rows whose cells are `none`
when `pd.to_datetime`/`pd.to_numeric` with `errors="coerce"` would
produce NaT/NaN.
-/

structure RawRow where
  date : Option ℤ
  open' : Option ℚ
  high : Option ℚ
  low : Option ℚ
  close : Option ℚ
  volume : Option ℚ
deriving DecidableEq, Repr

structure Frame where
  hasDate : Bool
  hasOpen : Bool
  hasHigh : Bool
  hasLow : Bool
  hasClose : Bool
  hasVolume : Bool
  rows : List RawRow
deriving DecidableEq, Repr

/-- A row surviving `dropna(subset=["date"])`. -/
structure DRow where
  date : ℤ
  open' : Option ℚ
  high : Option ℚ
  low : Option ℚ
  close : Option ℚ
  volume : Option ℚ
deriving DecidableEq, Repr

/-- A row surviving `dropna(subset=["open","high","low","close"])`:
`volume` may still be NaN (it is `fillna(0.0)`-ed later). -/
structure Candle where
  date : ℤ
  open' : ℚ
  high : ℚ
  low : ℚ
  close : ℚ
  volume : Option ℚ
deriving DecidableEq, Repr

/-- Stable ascending insertion by date (`sort_values("date")`; pandas
uses an unstable quicksort, but no claim depends on the order among
equal dates). -/
def insertByDate (x : DRow) : List DRow → List DRow
  | [] => [x]
  | y :: ys => if x.date < y.date then x :: y :: ys else y :: insertByDate x ys

def sortByDate (l : List DRow) : List DRow := l.foldr insertByDate []

/-- The cleaning prefix of `calculate_scores`: drop rows without a
parseable date, sort ascending by date, drop rows with a NaN in
open/high/low/close. -/
def cleanFrame (f : Frame) : List Candle :=
  let r1 := f.rows.filterMap (fun r =>
    r.date.map (fun dt => DRow.mk dt r.open' r.high r.low r.close r.volume))
  let r2 := sortByDate r1
  r2.filterMap (fun r =>
    match r.open', r.high, r.low, r.close with
    | some o, some h, some l, some c => some (Candle.mk r.date o h l c r.volume)
    | _, _, _, _ => none)

def closeS (d : List Candle) : Ser := d.map (fun c => some c.close)
def highS (d : List Candle) : Ser := d.map (fun c => some c.high)
def lowS (d : List Candle) : Ser := d.map (fun c => some c.low)

/-- `vol = d["volume"].fillna(0.0)`. -/
def volS (d : List Candle) : Ser := d.map (fun c => some (c.volume.getD 0))

/-- `close.iloc[-1]` (the `len(d) >= 60` gate guarantees nonemptiness;
the empty default is junk outside that gate). -/
def lastClose (d : List Candle) : ℚ :=
  match d.getLast? with
  | some c => c.close
  | none => 0

def lastDate (d : List Candle) : ℤ :=
  match d.getLast? with
  | some c => c.date
  | none => 0

def ema8S (d : List Candle) : Ser := emaI (closeS d) 8
def ema21S (d : List Candle) : Ser := emaI (closeS d) 21
def ema50S (d : List Candle) : Ser := emaI (closeS d) 50
def rsi14S (d : List Candle) : Ser := rsiI (closeS d) 14
def macdHistS (d : List Candle) : Ser := (macdI (closeS d) 12 26 9).2.2
def adxS (d : List Candle) : Ser := (adxI (highS d) (lowS d) (closeS d) 14).1
def pdiS (d : List Candle) : Ser := (adxI (highS d) (lowS d) (closeS d) 14).2.1
def mdiS (d : List Candle) : Ser := (adxI (highS d) (lowS d) (closeS d) 14).2.2
def atr14S (d : List Candle) : Ser := atrI (highS d) (lowS d) (closeS d) 14
def obvS (d : List Candle) : Ser := obvI (closeS d) (volS d)
def mfi14S (d : List Candle) : Ser := mfiI (highS d) (lowS d) (closeS d) (volS d) 14
def bbLowS (sq : ℚ → ℚ) (d : List Candle) : Ser := (bbandsI sq (closeS d) 20 2).1
def bbUpS (sq : ℚ → ℚ) (d : List Candle) : Ser := (bbandsI sq (closeS d) 20 2).2.2.1
def bbWidthS (sq : ℚ → ℚ) (d : List Candle) : Ser := (bbandsI sq (closeS d) 20 2).2.2.2

/-- `_safe_last(ema8) or last_close` (`or` also replaces an exact 0.0). -/
def lastEma8 (d : List Candle) : ℚ := orFalsy (safeLast (ema8S d)) (lastClose d)
def lastEma21 (d : List Candle) : ℚ := orFalsy (safeLast (ema21S d)) (lastClose d)
def lastEma50 (d : List Candle) : ℚ := orFalsy (safeLast (ema50S d)) (lastClose d)

def emaStackUp (d : List Candle) : Bool :=
  decide (lastClose d > lastEma21 d ∧ lastEma21 d > lastEma50 d ∧ lastEma8 d > lastEma21 d)

def emaStackDn (d : List Candle) : Bool :=
  decide (lastClose d < lastEma21 d ∧ lastEma21 d < lastEma50 d ∧ lastEma8 d < lastEma21 d)

def ema21Slope (d : List Candle) : ℚ := orFalsy (slopeLast (ema21S d) 8) 0
def adxVal (d : List Candle) : ℚ := orFalsy (safeLast (adxS d)) 0
def pdiVal (d : List Candle) : ℚ := orFalsy (safeLast (pdiS d)) 0
def mdiVal (d : List Candle) : ℚ := orFalsy (safeLast (mdiS d)) 0

def trendDir (d : List Candle) : String :=
  if emaStackUp d ∧ pdiVal d ≥ mdiVal d then "Up"
  else if emaStackDn d ∧ mdiVal d > pdiVal d then "Down"
  else "Neutral"

def trendStrength (d : List Candle) : ℚ :=
  (if emaStackUp d ∨ emaStackDn d then (25/10 : ℚ) else 5/10)
  + (if pdiVal d - mdiVal d > 5 then 2 else 0)
  + (if mdiVal d - pdiVal d > 5 then 2 else 0)
  + clip ((adxVal d - 15) / 15 * 3) 0 3
  + clip (absQ (ema21Slope d) * 50) 0 2

def trendScoreD (d : List Candle) : ℚ := clip (trendStrength d) 0 10

def rsiVal (d : List Candle) : ℚ := orFalsy (safeLast (rsi14S d)) 50
def rsiDelta (d : List Candle) : ℚ := deltaNowPrev (rsi14S d) 3
def histVal (d : List Candle) : ℚ := orFalsy (safeLast (macdHistS d)) 0
def histDelta (d : List Candle) : ℚ := deltaNowPrev (macdHistS d) 3

def momentumRaw (d : List Candle) : ℚ :=
  5 + clip ((rsiVal d - 50) / 50 * 4) (-4) 4
    + clip (rsiDelta d * (6/10)) (-2) 2
    + clip (histVal d * 8) (-(25/10)) (25/10)
    + clip (histDelta d * 12) (-(15/10)) (15/10)

def momentumScoreD (d : List Candle) : ℚ := clip (momentumRaw d) 0 10

/-- Extended value for `vol_ratio`: the one place where float division
can yield an infinity (`volume` last over a zero 20-period average). -/
inductive ExtQ where
  | fin (q : ℚ)
  | posInf
  | negInf
deriving DecidableEq, Repr

def ExtQ.geB (x : ExtQ) (c : ℚ) : Bool :=
  match x with
  | .fin q => decide (q ≥ c)
  | .posInf => true
  | .negInf => false

def volLast (d : List Candle) : ℚ :=
  match d.getLast? with
  | some c => c.volume.getD 0
  | none => 0

def volSma20S (d : List Candle) : Ser := smaI (serReplace0 (volS d)) 20

/-- `vol_ratio`: `1.0` when the last volume is falsy, otherwise the last
volume over the 20-period average (over itself when that is NaN). -/
def volRat (d : List Candle) : ExtQ :=
  if volLast d = 0 then .fin 1
  else
    match (volSma20S d).getLast? with
    | some (some m) =>
        if m = 0 then (if volLast d > 0 then .posInf else .negInf)
        else .fin (volLast d / m)
    | _ => .fin 1

/-- `_clip((vol_ratio - 1.0) * 3.0, -1.0, 3.0)` with float infinities
clipped to the corresponding bound. -/
def volExpansionContrib (x : ExtQ) : ℚ :=
  match x with
  | .fin q => clip ((q - 1) * 3) (-1) 3
  | .posInf => 3
  | .negInf => -1

def obvSlope (d : List Candle) : ℚ := orFalsy (slopeLast (obvS d) 8) 0
def mfiVal (d : List Candle) : ℚ := orFalsy (safeLast (mfi14S d)) 50
def mfiDelta (d : List Candle) : ℚ := deltaNowPrev (mfi14S d) 3

def volumeRaw (d : List Candle) : ℚ :=
  4 + volExpansionContrib (volRat d)
    + clip (obvSlope d * (1 / 1000000)) (-2) 2
    + clip ((mfiVal d - 50) / 50 * 2) (-2) 2
    + clip (mfiDelta d * (4/10)) (-1) 1

def volumeScoreD (d : List Candle) : ℚ := clip (volumeRaw d) 0 10

def bbWVal (sq : ℚ → ℚ) (d : List Candle) : ℚ := orFalsy (safeLast (bbWidthS sq d)) 0
def bbWRank (sq : ℚ → ℚ) (d : List Candle) : ℚ :=
  pctRank (serTail 200 (bbWidthS sq d)) (bbWVal sq d)
def bbWDelta (sq : ℚ → ℚ) (d : List Candle) : ℚ := deltaNowPrev (bbWidthS sq d) 3

def volatRaw (sq : ℚ → ℚ) (d : List Candle) : ℚ :=
  5 + clip ((bbWRank sq d - 5/10) * 6) (-3) 3 + clip (bbWDelta sq d * 40) (-2) 2

def volatilityScoreD (sq : ℚ → ℚ) (d : List Candle) : ℚ := clip (volatRaw sq d) 0 10

def regimeD (sq : ℚ → ℚ) (d : List Candle) : String :=
  if adxVal d ≥ 22 ∧ bbWRank sq d ≥ 45/100 then "Trend"
  else if adxVal d ≤ 18 ∧ bbWRank sq d ≤ 45/100 then "Range"
  else "Transition"

/-- The weighted composite before the confirmation adjustment. -/
def tmvWeighted (sq : ℚ → ℚ) (d : List Candle) : ℚ :=
  trendScoreD d * (35/100) + momentumScoreD d * (35/100)
    + volumeScoreD d * (20/100) + volatilityScoreD sq d * (10/100)

def momBias (d : List Candle) : String :=
  if rsiVal d ≥ 52 ∧ histVal d ≥ 0 then "Up"
  else if rsiVal d ≤ 48 ∧ histVal d ≤ 0 then "Down"
  else "Neutral"

def agreeD (d : List Candle) : Bool :=
  decide (trendDir d ≠ "Neutral" ∧ momBias d = trendDir d)

def conflictD (d : List Candle) : Bool :=
  decide (trendDir d ≠ "Neutral" ∧ momBias d ≠ "Neutral" ∧ momBias d ≠ trendDir d)

def tmvAdjusted (sq : ℚ → ℚ) (d : List Candle) : ℚ :=
  tmvWeighted sq d + (if agreeD d then (6/10 : ℚ) else 0)
    + (if conflictD d then -(8/10 : ℚ) else 0)

def tmvFinal (sq : ℚ → ℚ) (d : List Candle) : ℚ := clip (tmvAdjusted sq d) 0 10

def confD (d : List Candle) : ℚ :=
  clip (35/100 + (if agreeD d then (15/100 : ℚ) else 0)
    + (if adxVal d ≥ 20 then (10/100 : ℚ) else 0)
    + (if ExtQ.geB (volRat d) (115/100) then (10/100 : ℚ) else 0)
    + (if absQ (histDelta d) > 0 then (10/100 : ℚ) else 0)) 0 1

def nearUpper (sq : ℚ → ℚ) (d : List Candle) : Bool :=
  match (bbUpS sq d).getLast? with
  | some (some u) => decide (lastClose d ≥ u)
  | _ => false

def nearLower (sq : ℚ → ℚ) (d : List Candle) : Bool :=
  match (bbLowS sq d).getLast? with
  | some (some u) => decide (lastClose d ≤ u)
  | _ => false

def adxDelta (d : List Candle) : ℚ := deltaNowPrev (adxS d) 3

def revRaw (sq : ℚ → ℚ) (d : List Candle) : ℚ :=
  1/10 + (if rsiVal d ≥ 70 ∧ nearUpper sq d = true then (35/100 : ℚ) else 0)
    + (if rsiVal d ≤ 30 ∧ nearLower sq d = true then (35/100 : ℚ) else 0)
    + (if adxDelta d < 0 ∧ adxVal d ≥ 18 then (15/100 : ℚ) else 0)
    + (if bbWDelta sq d > 0 then -(1/10 : ℚ) else 0)

def reversalProbD (sq : ℚ → ℚ) (d : List Candle) : ℚ := clip (revRaw sq d) 0 1

/-- Python `f"{x:.0f}"`: round half to even to an integer (a negative
value rounding to zero prints as `-0`). -/
def fmt0 (q : ℚ) : String :=
  if roundHE q = 0 ∧ q < 0 then "-0" else toString (roundHE q)

/-- Python `f"{x:.2f}"`. -/
def fmt2 (q : ℚ) : String :=
  let r := roundHE (100 * q)
  let sgn := if r < 0 ∨ (r = 0 ∧ q < 0) then "-" else ""
  let a := r.natAbs
  sgn ++ toString (a / 100) ++ "." ++ (if a % 100 < 10 then "0" else "") ++ toString (a % 100)

def fmtExt2 (x : ExtQ) : String :=
  match x with
  | .fin q => fmt2 q
  | .posInf => "inf"
  | .negInf => "-inf"

/-- The `reasons` list assembled at the end of `calculate_scores`. -/
def reasonsD (sq : ℚ → ℚ) (d : List Candle) : List String :=
  (if trendDir d ≠ "Neutral" then ["EMA stack " ++ trendDir d] else [])
  ++ (if adxVal d ≥ 22 then ["ADX " ++ fmt0 (adxVal d) ++ " strong"] else [])
  ++ (if absQ (histDelta d) > 0 ∧ absQ (histVal d) > 0 then ["MACD accel"] else [])
  ++ (if ExtQ.geB (volRat d) (12/10) then ["Vol spike x" ++ fmtExt2 (volRat d)] else [])
  ++ (if bbWDelta sq d > 0 then ["BB width expanding"] else [])
  ++ (if rsiVal d ≥ 60 then ["RSI " ++ fmt0 (rsiVal d) ++ " bullish"]
      else if rsiVal d ≤ 40 then ["RSI " ++ fmt0 (rsiVal d) ++ " bearish"] else [])
  ++ (if conflictD d then ["Trend/Momentum conflict"] else [])

def signalReasonD (sq : ℚ → ℚ) (d : List Candle) : String :=
  let rs := reasonsD sq d
  if rs.isEmpty then "No strong edges (flat conditions)"
  else String.intercalate " + " (rs.take 6)

/-- The dictionary returned by `calculate_scores`.  The two error
dictionaries carry no `TrendScore`/... keys; absent keys are `none`
(the updater reads them with `.get`, which yields `None`). -/
structure ScoreResult where
  tmvScore : Option ℚ
  confidence : ℚ
  trendDirection : String
  regime : String
  reversalProbability : ℚ
  candleTime : Option ℤ
  signalReason : String
  trendScore : Option ℚ
  momentumScore : Option ℚ
  volumeScore : Option ℚ
  volatilityScore : Option ℚ
deriving DecidableEq, Repr

def errResult (msg : String) : ScoreResult :=
  { tmvScore := none, confidence := 0, trendDirection := "Neutral",
    regime := "Unknown", reversalProbability := 0, candleTime := none,
    signalReason := msg, trendScore := none, momentumScore := none,
    volumeScore := none, volatilityScore := none }

def hasRequiredCols (f : Frame) : Bool :=
  f.hasDate && f.hasOpen && f.hasHigh && f.hasLow && f.hasClose && f.hasVolume

/-- `calculate_scores(df)` (`utils/indicators.py`).  Python exceptions
cannot escape: the function is total and the two failure modes return
the explicit error dictionaries of the source. -/
def calculateScores (sq : ℚ → ℚ) (f : Frame) : ScoreResult :=
  if ¬ hasRequiredCols f then errResult "Missing columns"
  else if (cleanFrame f).length < 60 then errResult "Not enough candles (need ~60+)"
  else
    { tmvScore := some (round2 (tmvFinal sq (cleanFrame f))),
      confidence := round2 (confD (cleanFrame f)),
      trendDirection := trendDir (cleanFrame f),
      regime := regimeD sq (cleanFrame f),
      reversalProbability := round2 (reversalProbD sq (cleanFrame f)),
      candleTime := some (lastDate (cleanFrame f)),
      signalReason := signalReasonD sq (cleanFrame f),
      trendScore := some (round2 (trendScoreD (cleanFrame f))),
      momentumScore := some (round2 (momentumScoreD (cleanFrame f))),
      volumeScore := some (round2 (volumeScoreD (cleanFrame f))),
      volatilityScore := some (round2 (volatilityScoreD sq (cleanFrame f))) }

/-!
Helper lemmas about `calculateScores` and `round2`.
-/

theorem round2_bounds (lo hi : ℤ) (q : ℚ)
    (h1 : (lo : ℚ)/100 ≤ q) (h2 : q ≤ (hi : ℚ)/100) :
    (lo : ℚ)/100 ≤ round2 q ∧ round2 q ≤ (hi : ℚ)/100 :=
  ⟨round2_ge lo q h1, round2_le hi q h2⟩

/-- When the returned `TMV Score` is present, the computation took the
success branch and every field has its success-branch value. -/
theorem calculateScores_success (sq : ℚ → ℚ) (f : Frame) (t : ℚ)
    (h : (calculateScores sq f).tmvScore = some t) :
    t = round2 (tmvFinal sq (cleanFrame f))
    ∧ (calculateScores sq f).confidence = round2 (confD (cleanFrame f))
    ∧ (calculateScores sq f).reversalProbability = round2 (reversalProbD sq (cleanFrame f)) := by
  revert h
  unfold calculateScores
  split_ifs with h1 h2 <;> intro h <;>
    first
    | exact ⟨(Option.some.inj h).symm, rfl, rfl⟩
    | simp [errResult] at h

/-- C1: for every input OHLCV frame on which `calculate_scores` returns a
score (required columns present and at least 60 valid candles after
cleaning), the returned TMV Score lies in [0,10], Confidence lies in
[0,1] and Reversal Probability lies in [0,1]. -/
theorem c1_score_ranges (sq : ℚ → ℚ) (f : Frame) (t : ℚ)
    (h : (calculateScores sq f).tmvScore = some t) :
    (0 ≤ t ∧ t ≤ 10) ∧
    (0 ≤ (calculateScores sq f).confidence ∧ (calculateScores sq f).confidence ≤ 1) ∧
    (0 ≤ (calculateScores sq f).reversalProbability ∧
      (calculateScores sq f).reversalProbability ≤ 1) := by
  obtain ⟨ht, hc, hr⟩ := calculateScores_success sq f t h
  have htmv1 : (0 : ℚ) ≤ tmvFinal sq (cleanFrame f) := le_clip _ _ _
  have htmv2 : tmvFinal sq (cleanFrame f) ≤ 10 := clip_le _ _ _ (by norm_num)
  have hcf1 : (0 : ℚ) ≤ confD (cleanFrame f) := le_clip _ _ _
  have hcf2 : confD (cleanFrame f) ≤ 1 := clip_le _ _ _ (by norm_num)
  have hrv1 : (0 : ℚ) ≤ reversalProbD sq (cleanFrame f) := le_clip _ _ _
  have hrv2 : reversalProbD sq (cleanFrame f) ≤ 1 := clip_le _ _ _ (by norm_num)
  have b1 := round2_bounds 0 1000 (tmvFinal sq (cleanFrame f))
    (by push_cast; linarith) (by push_cast; linarith)
  have b2 := round2_bounds 0 100 (confD (cleanFrame f))
    (by push_cast; linarith) (by push_cast; linarith)
  have b3 := round2_bounds 0 100 (reversalProbD sq (cleanFrame f))
    (by push_cast; linarith) (by push_cast; linarith)
  rw [ht, hc, hr]
  norm_num at b1 b2 b3
  exact ⟨⟨b1.1, b1.2⟩, ⟨b2.1, b2.2⟩, ⟨b3.1, b3.2⟩⟩

/-- C2: an input frame with a required column missing, or fewer than 60
valid candles after cleaning, produces the explicit error dictionary
whose TMV Score field is None.  No Python exception can escape: the
embedded function is total and both failure modes return a value. -/
theorem c2_insufficient_data (sq : ℚ → ℚ) (f : Frame)
    (h : hasRequiredCols f = false ∨ (cleanFrame f).length < 60) :
    (calculateScores sq f).tmvScore = none := by
  unfold calculateScores
  rcases h with h | h
  · rw [if_pos (by simp [h])]
    rfl
  · by_cases h1 : hasRequiredCols f = true
    · rw [if_neg (by simp [h1]), if_pos h]
      rfl
    · rw [if_pos (by simp [h1])]
      rfl

/-- C3: for every frame scored successfully, the published composite
equals (after the final two-decimal rounding) the claimed formula:
clamp(0.35·Trend + 0.35·Momentum + 0.20·Volume + 0.10·Volatility, 0, 10),
then +0.6 when the momentum bias agrees with the trend direction and
−0.8 when it conflicts, re-clamped to [0,10].  (The source omits the
inner clamp; it is provably a no-op because each component score is
already clipped to [0,10] and the weights sum to 1.) -/
theorem c3_composite_formula (sq : ℚ → ℚ) (f : Frame) (t : ℚ)
    (h : (calculateScores sq f).tmvScore = some t) :
    t = round2 (clip
      (clip ((35/100) * trendScoreD (cleanFrame f)
          + (35/100) * momentumScoreD (cleanFrame f)
          + (20/100) * volumeScoreD (cleanFrame f)
          + (10/100) * volatilityScoreD sq (cleanFrame f)) 0 10
        + (if agreeD (cleanFrame f) then (6/10 : ℚ) else 0)
        + (if conflictD (cleanFrame f) then -(8/10 : ℚ) else 0)) 0 10) := by
  obtain ⟨ht, -, -⟩ := calculateScores_success sq f t h
  have hT1 : (0 : ℚ) ≤ trendScoreD (cleanFrame f) := le_clip _ _ _
  have hT2 : trendScoreD (cleanFrame f) ≤ 10 := clip_le _ _ _ (by norm_num)
  have hM1 : (0 : ℚ) ≤ momentumScoreD (cleanFrame f) := le_clip _ _ _
  have hM2 : momentumScoreD (cleanFrame f) ≤ 10 := clip_le _ _ _ (by norm_num)
  have hV1 : (0 : ℚ) ≤ volumeScoreD (cleanFrame f) := le_clip _ _ _
  have hV2 : volumeScoreD (cleanFrame f) ≤ 10 := clip_le _ _ _ (by norm_num)
  have hW1 : (0 : ℚ) ≤ volatilityScoreD sq (cleanFrame f) := le_clip _ _ _
  have hW2 : volatilityScoreD sq (cleanFrame f) ≤ 10 := clip_le _ _ _ (by norm_num)
  have hsum : (35/100) * trendScoreD (cleanFrame f)
      + (35/100) * momentumScoreD (cleanFrame f)
      + (20/100) * volumeScoreD (cleanFrame f)
      + (10/100) * volatilityScoreD sq (cleanFrame f) = tmvWeighted sq (cleanFrame f) := by
    unfold tmvWeighted
    ring
  have hclip : clip ((35/100) * trendScoreD (cleanFrame f)
      + (35/100) * momentumScoreD (cleanFrame f)
      + (20/100) * volumeScoreD (cleanFrame f)
      + (10/100) * volatilityScoreD sq (cleanFrame f)) 0 10
      = (35/100) * trendScoreD (cleanFrame f)
      + (35/100) * momentumScoreD (cleanFrame f)
      + (20/100) * volumeScoreD (cleanFrame f)
      + (10/100) * volatilityScoreD sq (cleanFrame f) :=
    clip_of_bounds _ _ _ (by linarith) (by linarith)
  rw [ht, hclip, hsum]
  rfl

/-- C10: on every successful score, Confidence is the base 0.35 plus the
four independent bonuses 0.15, 0.10, 0.10, 0.10, so it always lies in
[0.35, 0.80]: the final clamp to [0,1] never binds and the value never
falls below the base. -/
theorem c10_confidence_range (sq : ℚ → ℚ) (f : Frame) (t : ℚ)
    (h : (calculateScores sq f).tmvScore = some t) :
    (35/100 : ℚ) ≤ (calculateScores sq f).confidence
    ∧ (calculateScores sq f).confidence ≤ 80/100
    ∧ (calculateScores sq f).confidence =
        round2 ((35/100 : ℚ)
          + (if agreeD (cleanFrame f) then (15/100 : ℚ) else 0)
          + (if adxVal (cleanFrame f) ≥ 20 then (10/100 : ℚ) else 0)
          + (if ExtQ.geB (volRat (cleanFrame f)) (115/100) then (10/100 : ℚ) else 0)
          + (if absQ (histDelta (cleanFrame f)) > 0 then (10/100 : ℚ) else 0)) := by
  obtain ⟨-, hc, -⟩ := calculateScores_success sq f t h
  have e1 : (0 : ℚ) ≤ (if agreeD (cleanFrame f) then (15/100 : ℚ) else 0) ∧
      (if agreeD (cleanFrame f) then (15/100 : ℚ) else 0) ≤ 15/100 := by
    split <;> norm_num
  have e2 : (0 : ℚ) ≤ (if adxVal (cleanFrame f) ≥ 20 then (10/100 : ℚ) else 0) ∧
      (if adxVal (cleanFrame f) ≥ 20 then (10/100 : ℚ) else 0) ≤ 10/100 := by
    split <;> norm_num
  have e3 : (0 : ℚ) ≤ (if ExtQ.geB (volRat (cleanFrame f)) (115/100) then (10/100 : ℚ) else 0) ∧
      (if ExtQ.geB (volRat (cleanFrame f)) (115/100) then (10/100 : ℚ) else 0) ≤ 10/100 := by
    split <;> norm_num
  have e4 : (0 : ℚ) ≤ (if absQ (histDelta (cleanFrame f)) > 0 then (10/100 : ℚ) else 0) ∧
      (if absQ (histDelta (cleanFrame f)) > 0 then (10/100 : ℚ) else 0) ≤ 10/100 := by
    split <;> norm_num
  have hraw : confD (cleanFrame f) = (35/100 : ℚ)
      + (if agreeD (cleanFrame f) then (15/100 : ℚ) else 0)
      + (if adxVal (cleanFrame f) ≥ 20 then (10/100 : ℚ) else 0)
      + (if ExtQ.geB (volRat (cleanFrame f)) (115/100) then (10/100 : ℚ) else 0)
      + (if absQ (histDelta (cleanFrame f)) > 0 then (10/100 : ℚ) else 0) := by
    unfold confD
    exact clip_of_bounds _ _ _ (by linarith [e1.1, e2.1, e3.1, e4.1])
      (by linarith [e1.2, e2.2, e3.2, e4.2])
  have hlo : ((35 : ℤ) : ℚ)/100 ≤ confD (cleanFrame f) := by
    rw [hraw]
    push_cast
    linarith [e1.1, e2.1, e3.1, e4.1]
  have hhi : confD (cleanFrame f) ≤ ((80 : ℤ) : ℚ)/100 := by
    rw [hraw]
    push_cast
    linarith [e1.2, e2.2, e3.2, e4.2]
  have hb := round2_bounds 35 80 _ hlo hhi
  push_cast at hb
  rw [hc]
  exact ⟨by linarith [hb.1], by linarith [hb.2], by rw [hraw]⟩

/-!
Concrete witness inputs.  The Batteries rational operations are marked
irreducible, which blocks the `decide` tactic elaboration; restoring the
default transparency lets the kernel evaluate them.
-/

attribute [local semireducible] Rat.add Rat.mul Rat.inv Rat.sub

set_option maxRecDepth 1000000

/-- A square-root stand-in for witness evaluation (every window of the
witness frame has zero variance, where any `sq` agrees with the real
square root up to the abstraction). -/
def sqrtZero : ℚ → ℚ := fun _ => 0

/-- Sixty candles with constant prices and volumes. -/
def frameConst60 : Frame :=
  { hasDate := true, hasOpen := true, hasHigh := true, hasLow := true,
    hasClose := true, hasVolume := true,
    rows := (List.range 60).map (fun i =>
      { date := some (i : ℤ), open' := some 5, high := some 5, low := some 5,
        close := some 5, volume := some 7 }) }

/-- A frame whose `volume` column is missing. -/
def frameNoVolume : Frame :=
  { hasDate := true, hasOpen := true, hasHigh := true, hasLow := true,
    hasClose := true, hasVolume := false,
    rows := [({ date := some 0, open' := some 5, high := some 5, low := some 5,
                close := some 5, volume := none } : RawRow)] }

/-- Witness for C1 at the constant frame (TMV Score 3.52). -/
theorem c1_score_ranges_witness :
    ((0 : ℚ) ≤ 88/25 ∧ (88/25 : ℚ) ≤ 10) ∧
    (0 ≤ (calculateScores sqrtZero frameConst60).confidence ∧
      (calculateScores sqrtZero frameConst60).confidence ≤ 1) ∧
    (0 ≤ (calculateScores sqrtZero frameConst60).reversalProbability ∧
      (calculateScores sqrtZero frameConst60).reversalProbability ≤ 1) :=
  c1_score_ranges sqrtZero frameConst60 (88/25) (by decide)

/-- Witness for C2 at a frame missing the volume column. -/
theorem c2_insufficient_data_witness :
    (calculateScores sqrtZero frameNoVolume).tmvScore = none :=
  c2_insufficient_data sqrtZero frameNoVolume (Or.inl (by decide))

/-- Witness for C3 at the constant frame. -/
theorem c3_composite_formula_witness :
    (88/25 : ℚ) = round2 (clip
      (clip ((35/100) * trendScoreD (cleanFrame frameConst60)
          + (35/100) * momentumScoreD (cleanFrame frameConst60)
          + (20/100) * volumeScoreD (cleanFrame frameConst60)
          + (10/100) * volatilityScoreD sqrtZero (cleanFrame frameConst60)) 0 10
        + (if agreeD (cleanFrame frameConst60) then (6/10 : ℚ) else 0)
        + (if conflictD (cleanFrame frameConst60) then -(8/10 : ℚ) else 0)) 0 10) :=
  c3_composite_formula sqrtZero frameConst60 (88/25) (by decide)

/-- Witness for C10 at the constant frame (Confidence 0.35). -/
theorem c10_confidence_range_witness :
    (35/100 : ℚ) ≤ (calculateScores sqrtZero frameConst60).confidence
    ∧ (calculateScores sqrtZero frameConst60).confidence ≤ 80/100
    ∧ (calculateScores sqrtZero frameConst60).confidence =
        round2 ((35/100 : ℚ)
          + (if agreeD (cleanFrame frameConst60) then (15/100 : ℚ) else 0)
          + (if adxVal (cleanFrame frameConst60) ≥ 20 then (10/100 : ℚ) else 0)
          + (if ExtQ.geB (volRat (cleanFrame frameConst60)) (115/100) then (10/100 : ℚ) else 0)
          + (if absQ (histDelta (cleanFrame frameConst60)) > 0 then (10/100 : ℚ) else 0)) :=
  c10_confidence_range sqrtZero frameConst60 (88/25) (by decide)

/-!
The refresh/publish pipeline (`tmv_updater.py`).

`compute_scores_for_symbol` (Kite fetch + `calculate_scores`) is
abstracted as a function `fetch : String → Option ScoreRow`: `none`
covers a fetch failure (the per-symbol exception caught in
`compute_livescores`), an empty OHLC frame, and a score result without a
TMV Score; all three lead to the same observable per-symbol skip.
Wall-clock instants are IST `(weekday, hour, minute, second)` tuples.
-/

structure TimeIST where
  weekday : ℕ
  hour : ℕ
  minute : ℕ
  second : ℕ
deriving DecidableEq, Repr

def secOfDay (t : TimeIST) : ℕ := t.hour * 3600 + t.minute * 60 + t.second

/-- `_time_in_range(dt, (sh, sm), (eh, em))` with seconds zeroed on the
bounds. -/
def timeInRange (t : TimeIST) (sh sm eh em : ℕ) : Bool :=
  decide (sh * 3600 + sm * 60 ≤ secOfDay t ∧ secOfDay t ≤ eh * 3600 + em * 60)

/-- `is_market_hours`: weekday and 09:15–15:35 IST. -/
def isMarketHours (t : TimeIST) : Bool :=
  decide (t.weekday < 5) && timeInRange t 9 15 15 35

/-- `is_baseline_window`: weekday and 09:15–09:30 IST. -/
def isBaselineWindow (t : TimeIST) : Bool :=
  decide (t.weekday < 5) && timeInRange t 9 15 9 30

/-- Python whitespace for `str.strip()`. -/
def pyWhitespace (c : Char) : Bool :=
  c == ' ' || c == '\t' || c == '\n' || c == '\r'

def trimChars (l : List Char) : List Char :=
  ((l.dropWhile pyWhitespace).reverse.dropWhile pyWhitespace).reverse

/-- ASCII uppercase (ticker symbols are ASCII). -/
def upChar (c : Char) : Char :=
  if 'a' ≤ c ∧ c ≤ 'z' then Char.ofNat (c.toNat - 32) else c

/-- `normalize_symbol`: `strip()`, `upper()`, `replace("-", "_")`,
implemented on the character list so that it evaluates in the kernel. -/
def normalizeSymbol (s : String) : String :=
  String.mk (((trimChars s.data).map upChar).map (fun c => if c == '-' then '_' else c))

/-- `dict.fromkeys` deduplication keeping first occurrences. -/
def dedupeKeepFirst (l : List String) : List String :=
  l.foldl (fun acc s => if s ∈ acc then acc else acc ++ [s]) []

/-- `load_watchlist`: drop the header cell, normalize, drop empties,
deduplicate keeping the first occurrence. -/
def loadWatchlist (raw : List String) : List String :=
  dedupeKeepFirst ((raw.drop 1).filterMap (fun s =>
    if normalizeSymbol s = "" then none else some (normalizeSymbol s)))

/-- The scores dictionary of a successfully scored symbol, as consumed by
the updater (`compute_scores_for_symbol` guarantees the TMV Score is
present, so the numeric fields are plain rationals). -/
structure ScoreRow where
  tmv : ℚ
  confidence : ℚ
  trendDirection : String
  regime : String
  reversalProbability : ℚ
  signalReason : String
  trendScore : ℚ
  momentumScore : ℚ
  volumeScore : ℚ
  volatilityScore : ℚ
  candleTime : String
deriving DecidableEq, Repr

/-- A row of the `Baseline915` worksheet (`BASELINE_COLUMNS`). -/
structure BaselineRow where
  date : String
  symbol : String
  tmv : ℚ
  confidence : ℚ
  trendDirection : String
  regime : String
  reversalProbability : ℚ
  signalReason : String
  trendScore : ℚ
  momentumScore : ℚ
  volumeScore : ℚ
  volatilityScore : ℚ
  candleTime : String
  capturedAt : String
deriving DecidableEq, Repr

def mkBaselineRow (td capturedAt sym : String) (sc : ScoreRow) : BaselineRow :=
  { date := td, symbol := sym, tmv := sc.tmv, confidence := sc.confidence,
    trendDirection := sc.trendDirection, regime := sc.regime,
    reversalProbability := sc.reversalProbability, signalReason := sc.signalReason,
    trendScore := sc.trendScore, momentumScore := sc.momentumScore,
    volumeScore := sc.volumeScore, volatilityScore := sc.volatilityScore,
    candleTime := sc.candleTime, capturedAt := capturedAt }

/-- `read_baseline_map`: only rows whose `BaselineDate` is today. -/
def readBaselineToday (td : String) (tbl : List BaselineRow) : List BaselineRow :=
  tbl.filter (fun r => r.date == td)

/-- The dict built by `read_baseline_map` assigns rows in order, so a
later row for the same symbol overwrites an earlier one. -/
def baselineLookup (bmap : List BaselineRow) (sym : String) : Option BaselineRow :=
  bmap.reverse.find? (fun r => r.symbol == sym)

/-- A row of the published `LiveScores` table; the delta fields are
`none` where the sheet shows the empty string. -/
structure LiveRow where
  symbol : String
  tmv : ℚ
  confidence : ℚ
  trendDirection : String
  regime : String
  reversalProbability : ℚ
  signalReason : String
  trendScore : ℚ
  momentumScore : ℚ
  volumeScore : ℚ
  volatilityScore : ℚ
  candleTime : String
  asOf : String
  baselineDate : String
  baseTmv : Option ℚ
  tmvDelta : Option ℚ
  trendDelta : Option ℚ
  momentumDelta : Option ℚ
  volumeDelta : Option ℚ
  volatilityDelta : Option ℚ
deriving DecidableEq, Repr

/-- The row assembled per symbol in `compute_livescores` (lines 243–269):
deltas are current minus baseline, present only when the symbol has a
baseline for today. -/
def mkLiveRow (asOf td : String) (bmap : List BaselineRow) (sym : String)
    (sc : ScoreRow) : LiveRow :=
  { symbol := sym, tmv := sc.tmv, confidence := sc.confidence,
    trendDirection := sc.trendDirection, regime := sc.regime,
    reversalProbability := sc.reversalProbability, signalReason := sc.signalReason,
    trendScore := sc.trendScore, momentumScore := sc.momentumScore,
    volumeScore := sc.volumeScore, volatilityScore := sc.volatilityScore,
    candleTime := sc.candleTime, asOf := asOf,
    baselineDate := if (baselineLookup bmap sym).isSome then td else "",
    baseTmv := (baselineLookup bmap sym).map (fun b => b.tmv),
    tmvDelta := (baselineLookup bmap sym).map (fun b => sc.tmv - b.tmv),
    trendDelta := (baselineLookup bmap sym).map (fun b => sc.trendScore - b.trendScore),
    momentumDelta := (baselineLookup bmap sym).map (fun b => sc.momentumScore - b.momentumScore),
    volumeDelta := (baselineLookup bmap sym).map (fun b => sc.volumeScore - b.volumeScore),
    volatilityDelta := (baselineLookup bmap sym).map (fun b => sc.volatilityScore - b.volatilityScore) }

/-- `compute_livescores`: per-symbol failures are skipped, never
propagated. -/
def computeLivescores (asOf td : String) (bmap : List BaselineRow)
    (fetch : String → Option ScoreRow) (symbols : List String) : List LiveRow :=
  symbols.filterMap (fun s => (fetch s).map (mkLiveRow asOf td bmap s))

/-- The externally visible writes of one run. -/
inductive Effect where
  | writeBaseline (rows : List BaselineRow)
  | publishLive (rows : List LiveRow)
  | writeWatchdog (timestamp : String)
deriving DecidableEq, Repr

def isWatchdogEff : Effect → Bool
  | .writeWatchdog _ => true
  | _ => false

def isPublishEff : Effect → Bool
  | .publishLive _ => true
  | _ => false

structure SheetState where
  baseline : List BaselineRow
  live : List LiveRow
deriving DecidableEq, Repr

/-- Step 1 of `main`: capture the baseline when inside the window and no
baseline row exists for today.  `write_baseline` clears the worksheet
and writes exactly the captured rows. -/
def baselineStep (dt : TimeIST) (td capturedAt : String) (symbols : List String)
    (fetch : String → Option ScoreRow) (tbl : List BaselineRow) :
    List BaselineRow × List Effect :=
  if isBaselineWindow dt = true ∧ (readBaselineToday td tbl).isEmpty = true then
    if ((symbols.filterMap (fun s => (fetch s).map (mkBaselineRow td capturedAt s))).isEmpty) = true
    then (tbl, [])
    else (symbols.filterMap (fun s => (fetch s).map (mkBaselineRow td capturedAt s)),
      [Effect.writeBaseline (symbols.filterMap (fun s => (fetch s).map (mkBaselineRow td capturedAt s)))])
  else (tbl, [])

/-- `main()` of `tmv_updater.py`: market-hours gate, watchlist load,
baseline capture, live-score computation, and at most one publish.  The
returned trace lists the writes in order; there is no watchdog write
anywhere in the source. -/
def mainRun (dt : TimeIST) (asOf td capturedAt : String) (raw : List String)
    (fetch : String → Option ScoreRow) (st : SheetState) :
    SheetState × List Effect :=
  if isMarketHours dt = false then (st, [])
  else if (loadWatchlist raw).isEmpty = true then (st, [])
  else
    if (computeLivescores asOf td
        (readBaselineToday td (baselineStep dt td capturedAt (loadWatchlist raw) fetch st.baseline).1)
        fetch (loadWatchlist raw)).isEmpty = true then
      ({ st with baseline := (baselineStep dt td capturedAt (loadWatchlist raw) fetch st.baseline).1 },
        (baselineStep dt td capturedAt (loadWatchlist raw) fetch st.baseline).2)
    else
      ({ baseline := (baselineStep dt td capturedAt (loadWatchlist raw) fetch st.baseline).1,
         live := computeLivescores asOf td
           (readBaselineToday td (baselineStep dt td capturedAt (loadWatchlist raw) fetch st.baseline).1)
           fetch (loadWatchlist raw) },
        (baselineStep dt td capturedAt (loadWatchlist raw) fetch st.baseline).2
          ++ [Effect.publishLive (computeLivescores asOf td
            (readBaselineToday td (baselineStep dt td capturedAt (loadWatchlist raw) fetch st.baseline).1)
            fetch (loadWatchlist raw))])

/-- C4: for every symbol whose run has both a current TMV Score `c` and a
same-day baseline TMV Score `b`, the published TMV Δ equals
round(c − b, 2).  The source publishes the raw difference `c − b`; since
both pipeline scores are two-decimal values (every published score is a
`round2` output), the difference is already two-decimal and equals its
rounding, which the hypotheses `hc`/`hbt` record. -/
theorem c4_delta_is_rounded_difference (asOf td : String) (bmap : List BaselineRow)
    (sym : String) (sc : ScoreRow) (b : BaselineRow)
    (hb : baselineLookup bmap sym = some b)
    (i j : ℤ) (hc : sc.tmv = (i : ℚ)/100) (hbt : b.tmv = (j : ℚ)/100) :
    (mkLiveRow asOf td bmap sym sc).tmvDelta = some (round2 (sc.tmv - b.tmv)) := by
  have hrow : (mkLiveRow asOf td bmap sym sc).tmvDelta
      = (baselineLookup bmap sym).map (fun x => sc.tmv - x.tmv) := rfl
  rw [hrow, hb]
  have hdiff : sc.tmv - b.tmv = ((i - j : ℤ) : ℚ)/100 := by
    rw [hc, hbt]
    push_cast
    ring
  rw [Option.map_some', hdiff, round2_two_decimals]

/-- A concrete successfully scored symbol used by witnesses. -/
def scoreRowA : ScoreRow :=
  { tmv := 352/100, confidence := 1/2, trendDirection := "Up", regime := "Trend",
    reversalProbability := 1/10, signalReason := "EMA stack Up",
    trendScore := 5, momentumScore := 5, volumeScore := 4, volatilityScore := 8,
    candleTime := "2026-10-12T10:00:00" }

/-- A concrete baseline row for the same symbol. -/
def baseRowA : BaselineRow :=
  { date := "2026-10-12", symbol := "TCS", tmv := 310/100, confidence := 1/2,
    trendDirection := "Up", regime := "Trend", reversalProbability := 1/10,
    signalReason := "EMA stack Up", trendScore := 4, momentumScore := 5,
    volumeScore := 4, volatilityScore := 7, candleTime := "2026-10-12T09:15:00",
    capturedAt := "2026-10-12T09:16:00" }

/-- Witness for C4: current 3.52 against baseline 3.10 publishes 0.42. -/
theorem c4_delta_is_rounded_difference_witness :
    (mkLiveRow "2026-10-12T10:05:00" "2026-10-12" [baseRowA] "TCS" scoreRowA).tmvDelta
      = some (round2 (scoreRowA.tmv - baseRowA.tmv)) :=
  c4_delta_is_rounded_difference "2026-10-12T10:05:00" "2026-10-12" [baseRowA] "TCS"
    scoreRowA baseRowA (by decide) 352 310 (by norm_num [scoreRowA]) (by norm_num [baseRowA])

theorem dedupeKeepFirst_nodup (l : List String) : (dedupeKeepFirst l).Nodup := by
  suffices h : ∀ (m : List String) (acc : List String), acc.Nodup →
      (m.foldl (fun acc s => if s ∈ acc then acc else acc ++ [s]) acc).Nodup by
    exact h l [] List.nodup_nil
  intro m
  induction m with
  | nil => intro acc h; exact h
  | cons a as ih =>
    intro acc hacc
    simp only [List.foldl_cons]
    split
    · exact ih acc hacc
    · rename_i hnotmem
      apply ih
      simp [List.nodup_append, hacc, hnotmem]

theorem loadWatchlist_nodup (raw : List String) : (loadWatchlist raw).Nodup :=
  dedupeKeepFirst_nodup _

/-- In the captured baseline rows of a duplicate-free symbol list, a
successfully fetched symbol owns exactly one row for today. -/
theorem countP_capture_rows (fetch : String → Option ScoreRow) (td ca sym : String)
    (l : List String) (hnd : l.Nodup) (hmem : sym ∈ l) (hf : (fetch sym).isSome) :
    (l.filterMap (fun s => (fetch s).map (mkBaselineRow td ca s))).countP
      (fun r => r.date == td && r.symbol == sym) = 1 := by
  induction l with
  | nil => cases hmem
  | cons a as ih =>
    rw [List.nodup_cons] at hnd
    rcases List.mem_cons.mp hmem with he | hm
    · subst he
      obtain ⟨r, hr⟩ := Option.isSome_iff_exists.mp hf
      rw [List.filterMap_cons, hr, Option.map_some']
      rw [List.countP_cons_of_pos _ _ (by simp [mkBaselineRow])]
      have hzero : (as.filterMap (fun s => (fetch s).map (mkBaselineRow td ca s))).countP
          (fun row => row.date == td && row.symbol == sym) = 0 := by
        rw [List.countP_eq_zero]
        intro x hx
        obtain ⟨s, hs, hsx⟩ := List.mem_filterMap.mp hx
        cases hfs : fetch s with
        | none => rw [hfs] at hsx; cases hsx
        | some r2 =>
          rw [hfs, Option.map_some'] at hsx
          have hxe : x = mkBaselineRow td ca s r2 := (Option.some_inj.mp hsx).symm
          have hne : s ≠ sym := fun h => hnd.1 (h ▸ hs)
          simp [hxe, mkBaselineRow, hne]
      omega
    · have hne : a ≠ sym := fun h => hnd.1 (h ▸ hm)
      rw [List.filterMap_cons]
      cases hfa : fetch a with
      | none => exact ih hnd.2 hm
      | some r2 =>
        rw [Option.map_some']
        rw [List.countP_cons_of_neg _ _ (by simp [mkBaselineRow, hne])]
        exact ih hnd.2 hm

/-- C6: when the baseline window is active, no baseline exists for today
and one watched symbol scores successfully, the first run captures a
table holding exactly one BaselineRecord for (today, symbol), and a
second capture attempt the same day is a no-op: the table is unchanged
and nothing is written. -/
theorem c6_baseline_capture_idempotent (dt dt2 : TimeIST) (td ca ca2 : String)
    (raw : List String) (fetch : String → Option ScoreRow) (sym : String)
    (tbl : List BaselineRow)
    (hw : isBaselineWindow dt = true)
    (hsym : sym ∈ loadWatchlist raw)
    (hf : (fetch sym).isSome)
    (h0 : readBaselineToday td tbl = []) :
    (baselineStep dt2 td ca2 (loadWatchlist raw) fetch
        (baselineStep dt td ca (loadWatchlist raw) fetch tbl).1).1
      = (baselineStep dt td ca (loadWatchlist raw) fetch tbl).1
    ∧ (baselineStep dt2 td ca2 (loadWatchlist raw) fetch
        (baselineStep dt td ca (loadWatchlist raw) fetch tbl).1).2 = []
    ∧ ((baselineStep dt td ca (loadWatchlist raw) fetch tbl).1).countP
        (fun r => r.date == td && r.symbol == sym) = 1 := by
  obtain ⟨r, hr⟩ := Option.isSome_iff_exists.mp hf
  have hmemrow : mkBaselineRow td ca sym r ∈
      (loadWatchlist raw).filterMap (fun s => (fetch s).map (mkBaselineRow td ca s)) :=
    List.mem_filterMap.mpr ⟨sym, hsym, by rw [hr, Option.map_some']⟩
  have hrowsne : ((loadWatchlist raw).filterMap
      (fun s => (fetch s).map (mkBaselineRow td ca s))).isEmpty = false := by
    rw [List.isEmpty_eq_false_iff_exists_mem]
    exact ⟨_, hmemrow⟩
  have ht1 : (baselineStep dt td ca (loadWatchlist raw) fetch tbl).1
      = (loadWatchlist raw).filterMap (fun s => (fetch s).map (mkBaselineRow td ca s)) := by
    unfold baselineStep
    rw [if_pos ⟨hw, by rw [h0]; rfl⟩, if_neg (by rw [hrowsne]; exact Bool.false_ne_true)]
  have hdates : ∀ x ∈ (loadWatchlist raw).filterMap
      (fun s => (fetch s).map (mkBaselineRow td ca s)), x.date = td := by
    intro x hx
    obtain ⟨s, hs, hsx⟩ := List.mem_filterMap.mp hx
    cases hfs : fetch s with
    | none => rw [hfs] at hsx; cases hsx
    | some r2 =>
      rw [hfs, Option.map_some'] at hsx
      rw [← Option.some_inj.mp hsx]
      rfl
  have hread : readBaselineToday td ((loadWatchlist raw).filterMap
      (fun s => (fetch s).map (mkBaselineRow td ca s)))
      = (loadWatchlist raw).filterMap (fun s => (fetch s).map (mkBaselineRow td ca s)) := by
    unfold readBaselineToday
    rw [List.filter_eq_self]
    intro x hx
    simp [hdates x hx]
  have hsecond : (baselineStep dt2 td ca2 (loadWatchlist raw) fetch
      ((loadWatchlist raw).filterMap (fun s => (fetch s).map (mkBaselineRow td ca s)))) =
      ((loadWatchlist raw).filterMap (fun s => (fetch s).map (mkBaselineRow td ca s)), []) := by
    unfold baselineStep
    rw [if_neg]
    intro hcond
    rw [hread, hrowsne] at hcond
    exact Bool.false_ne_true hcond.2
  refine ⟨?_, ?_, ?_⟩
  · rw [ht1, hsecond]
  · rw [ht1, hsecond]
  · rw [ht1]
    exact countP_capture_rows fetch td ca sym (loadWatchlist raw)
      (loadWatchlist_nodup raw) hsym hf

/-- Witness for C6: a Monday 09:20 run over a one-symbol watchlist. -/
theorem c6_baseline_capture_idempotent_witness :
    (baselineStep ⟨0, 9, 25, 0⟩ "2026-10-12" "c2" (loadWatchlist ["Symbol", "TCS"]) (fun _ => some scoreRowA)
        (baselineStep ⟨0, 9, 20, 0⟩ "2026-10-12" "c1" (loadWatchlist ["Symbol", "TCS"]) (fun _ => some scoreRowA) []).1).1
      = (baselineStep ⟨0, 9, 20, 0⟩ "2026-10-12" "c1" (loadWatchlist ["Symbol", "TCS"]) (fun _ => some scoreRowA) []).1
    ∧ (baselineStep ⟨0, 9, 25, 0⟩ "2026-10-12" "c2" (loadWatchlist ["Symbol", "TCS"]) (fun _ => some scoreRowA)
        (baselineStep ⟨0, 9, 20, 0⟩ "2026-10-12" "c1" (loadWatchlist ["Symbol", "TCS"]) (fun _ => some scoreRowA) []).1).2 = []
    ∧ ((baselineStep ⟨0, 9, 20, 0⟩ "2026-10-12" "c1" (loadWatchlist ["Symbol", "TCS"]) (fun _ => some scoreRowA) []).1).countP
        (fun r => r.date == "2026-10-12" && r.symbol == "TCS") = 1 :=
  c6_baseline_capture_idempotent ⟨0, 9, 20, 0⟩ ⟨0, 9, 25, 0⟩ "2026-10-12" "c1" "c2"
    ["Symbol", "TCS"] (fun _ => some scoreRowA) "TCS" []
    (by decide) (by decide) (by decide) (by decide)

/-- The rows of `compute_livescores` are exactly the succeeding symbols,
in watchlist order, when precisely one symbol `p` fails. -/
theorem computeLivescores_symbols (asOf td : String) (bmap : List BaselineRow)
    (fetch : String → Option ScoreRow) (p : String) (symbols : List String)
    (hfail : fetch p = none)
    (hsucc : ∀ s ∈ symbols, s ≠ p → (fetch s).isSome) :
    (computeLivescores asOf td bmap fetch symbols).map (fun r => r.symbol)
      = symbols.filter (fun s => s != p) := by
  induction symbols with
  | nil => rfl
  | cons a as ih =>
    by_cases ha : a = p
    · subst ha
      unfold computeLivescores
      rw [List.filterMap_cons, hfail]
      have hfa : (a != a) = false := by simp
      rw [List.filter_cons, hfa]
      exact ih (fun s hs => hsucc s (List.mem_cons_of_mem a hs))
    · obtain ⟨r, hr⟩ := Option.isSome_iff_exists.mp
        (hsucc a (List.mem_cons_self a as) ha)
      unfold computeLivescores
      rw [List.filterMap_cons, hr, Option.map_some']
      have hfa : (a != p) = true := by simp [ha]
      rw [List.filter_cons, hfa, List.map_cons]
      have ihe := ih (fun s hs => hsucc s (List.mem_cons_of_mem a hs))
      unfold computeLivescores at ihe
      rw [ihe]
      simp [mkLiveRow]

/-- C7: when one watched symbol fails to fetch or score and the others
succeed, the run still completes and publishes: the published table
lists exactly the succeeding symbols (in order) and omits only the
failing one. -/
theorem c7_partial_failure_publishes (dt : TimeIST) (asOf td ca : String)
    (raw : List String) (fetch : String → Option ScoreRow) (p : String)
    (st : SheetState)
    (hm : isMarketHours dt = true)
    (hp : p ∈ loadWatchlist raw)
    (hfail : fetch p = none)
    (hsucc : ∀ s ∈ loadWatchlist raw, s ≠ p → (fetch s).isSome)
    (hother : ∃ s ∈ loadWatchlist raw, s ≠ p) :
    (mainRun dt asOf td ca raw fetch st).1.live.map (fun r => r.symbol)
      = (loadWatchlist raw).filter (fun s => s != p)
    ∧ (mainRun dt asOf td ca raw fetch st).2.any isPublishEff = true := by
  obtain ⟨q, hq, hqp⟩ := hother
  have hsymne : (loadWatchlist raw).isEmpty = false := by
    rw [List.isEmpty_eq_false_iff_exists_mem]
    exact ⟨p, hp⟩
  have hmap := computeLivescores_symbols asOf td
    (readBaselineToday td (baselineStep dt td ca (loadWatchlist raw) fetch st.baseline).1)
    fetch p (loadWatchlist raw) hfail hsucc
  have hlivene : (computeLivescores asOf td
      (readBaselineToday td (baselineStep dt td ca (loadWatchlist raw) fetch st.baseline).1)
      fetch (loadWatchlist raw)).isEmpty = false := by
    rw [List.isEmpty_eq_false_iff_exists_mem]
    have hqf : q ∈ (loadWatchlist raw).filter (fun s => s != p) :=
      List.mem_filter.mpr ⟨hq, by simp [hqp]⟩
    rw [← hmap] at hqf
    obtain ⟨row, hrow, -⟩ := List.mem_map.mp hqf
    exact ⟨row, hrow⟩
  unfold mainRun
  rw [if_neg (by simp [hm]), if_neg (by simp [hsymne]), if_neg (by simp [hlivene])]
  exact ⟨hmap, by simp [isPublishEff]⟩

/-- Witness for C7: symbol BBB fails, AAA succeeds, the run publishes
only AAA. -/
theorem c7_partial_failure_publishes_witness :
    (mainRun ⟨0, 10, 0, 0⟩ "a" "2026-10-12" "c" ["Symbol", "AAA", "BBB"]
        (fun s => if s == "BBB" then none else some scoreRowA) ⟨[], []⟩).1.live.map
        (fun r => r.symbol)
      = (loadWatchlist ["Symbol", "AAA", "BBB"]).filter (fun s => s != "BBB")
    ∧ (mainRun ⟨0, 10, 0, 0⟩ "a" "2026-10-12" "c" ["Symbol", "AAA", "BBB"]
        (fun s => if s == "BBB" then none else some scoreRowA) ⟨[], []⟩).2.any
        isPublishEff = true :=
  c7_partial_failure_publishes ⟨0, 10, 0, 0⟩ "a" "2026-10-12" "c"
    ["Symbol", "AAA", "BBB"] (fun s => if s == "BBB" then none else some scoreRowA)
    "BBB" ⟨[], []⟩ (by decide) (by decide) (by decide) (by decide) (by decide)

theorem baselineStep_no_watchdog (dt : TimeIST) (td ca : String)
    (symbols : List String) (fetch : String → Option ScoreRow)
    (tbl : List BaselineRow) :
    ((baselineStep dt td ca symbols fetch tbl).2.all (fun e => !isWatchdogEff e)) = true := by
  unfold baselineStep
  split_ifs <;> simp [isWatchdogEff]

/-- C9 (amended): a run of `main` never writes a watchdog timestamp —
its trace consists of baseline writes and at most one publish; no
last-successful-run marker exists anywhere in the source. -/
theorem c9_no_watchdog_write (dt : TimeIST) (asOf td ca : String)
    (raw : List String) (fetch : String → Option ScoreRow) (st : SheetState) :
    ((mainRun dt asOf td ca raw fetch st).2.all (fun e => !isWatchdogEff e)) = true := by
  unfold mainRun
  split_ifs
  · rfl
  · rfl
  · exact baselineStep_no_watchdog dt td ca (loadWatchlist raw) fetch st.baseline
  · rw [List.all_append, baselineStep_no_watchdog dt td ca (loadWatchlist raw) fetch st.baseline]
    rfl

/-- C9 counterexample: a concrete successful run publishes the table yet
its trace contains no watchdog write, refuting the claim that every
successful publish is followed by one. -/
theorem c9_counterexample :
    ((mainRun ⟨0, 10, 0, 0⟩ "a" "2026-10-12" "c" ["Symbol", "TCS"]
        (fun _ => some scoreRowA) ⟨[], []⟩).2.any isPublishEff = true)
    ∧ ((mainRun ⟨0, 10, 0, 0⟩ "a" "2026-10-12" "c" ["Symbol", "TCS"]
        (fun _ => some scoreRowA) ⟨[], []⟩).2.any isWatchdogEff = false) := by
  decide

/-!
Fault model of `write_livescores` + `retry_gsheets` (`tmv_updater.py`).

`write_livescores` wraps `_write = ws.clear(); ws.update("A1", values)`
in `retry_gsheets` (up to 6 attempts; a transient `APIError` — 429/5xx —
sleeps and retries, any other error propagates, exhaustion raises
`RuntimeError`).  The fault schedule assigns each attempt an outcome for
its clear call and its update call.
-/

inductive GsOutcome where
  | ok
  | transientErr
  | fatalErr
deriving DecidableEq, Repr

inductive WriteOutcome where
  | success
  | fatal
  | exhausted
deriving DecidableEq, Repr

/-- The `retry_gsheets` loop over `_write = clear(); update()`.  Per
attempt: a failed clear leaves the worksheet untouched; a successful
clear empties it, after which only a successful update installs the new
rows.  A transient error retries the whole attempt, a fatal error
propagates, and exhausting the attempts raises (`RuntimeError`). -/
def retryWrite (sched : ℕ → GsOutcome × GsOutcome) (new : List LiveRow) :
    ℕ → ℕ → List LiveRow → List LiveRow × WriteOutcome
  | 0, _, tbl => (tbl, .exhausted)
  | fuel + 1, i, tbl =>
    match (sched i).1, (sched i).2 with
    | .transientErr, _ => retryWrite sched new fuel (i + 1) tbl
    | .fatalErr, _ => (tbl, .fatal)
    | .ok, .ok => (new, .success)
    | .ok, .transientErr => retryWrite sched new fuel (i + 1) []
    | .ok, .fatalErr => ([], .fatal)

/-- `write_livescores` under a fault schedule: `tries = 6`. -/
def writeLivescoresM (sched : ℕ → GsOutcome × GsOutcome)
    (new tbl : List LiveRow) : List LiveRow × WriteOutcome :=
  retryWrite sched new 6 0 tbl

theorem retryWrite_fail (sched : ℕ → GsOutcome × GsOutcome) (new : List LiveRow) :
    ∀ (fuel i : ℕ) (tbl : List LiveRow),
      (retryWrite sched new fuel i tbl).2 ≠ .success →
      (retryWrite sched new fuel i tbl).1 = tbl ∨ (retryWrite sched new fuel i tbl).1 = [] := by
  intro fuel
  induction fuel with
  | zero => intro i tbl _; exact Or.inl rfl
  | succ k ih =>
    intro i tbl hfail
    unfold retryWrite at hfail ⊢
    cases hoc : (sched i).1 with
    | transientErr =>
      simp only [hoc] at hfail ⊢
      exact ih (i + 1) tbl hfail
    | fatalErr =>
      simp only [hoc] at hfail ⊢
      exact Or.inl trivial
    | ok =>
      cases hou : (sched i).2 with
      | ok =>
        simp only [hoc, hou] at hfail
        exact absurd rfl hfail
      | transientErr =>
        simp only [hoc, hou] at hfail ⊢
        rcases ih (i + 1) [] hfail with h | h
        · exact Or.inr h
        · exact Or.inr h
      | fatalErr =>
        simp only [hoc, hou] at hfail ⊢
        exact Or.inr trivial

theorem retryWrite_clear_never_ok (sched : ℕ → GsOutcome × GsOutcome)
    (new : List LiveRow) :
    ∀ (fuel i : ℕ) (tbl : List LiveRow),
      (∀ j, i ≤ j → j < i + fuel → (sched j).1 ≠ GsOutcome.ok) →
      (retryWrite sched new fuel i tbl).1 = tbl := by
  intro fuel
  induction fuel with
  | zero => intro i tbl _; rfl
  | succ k ih =>
    intro i tbl hcl
    have hi : (sched i).1 ≠ GsOutcome.ok := hcl i (le_refl i) (by omega)
    unfold retryWrite
    cases hoc : (sched i).1 with
    | ok => exact absurd hoc hi
    | transientErr =>
      simp only [hoc]
      exact ih (i + 1) tbl (fun j h1 h2 => hcl j (by omega) (by omega))
    | fatalErr =>
      simp only [hoc]

/-- C5 (amended): when a publish attempt fails (fatal error or retries
exhausted), the published table is never a partial mix of old and new
rows: it is either exactly the pre-attempt table — and is guaranteed to
be so whenever the failure struck before any clear succeeded — or it is
empty, which happens when a clear succeeded and the subsequent update
failed.  The pre-attempt table is therefore not always left intact. -/
theorem c5_failed_publish_no_partial_write (sched : ℕ → GsOutcome × GsOutcome)
    (new tbl : List LiveRow)
    (h : (writeLivescoresM sched new tbl).2 ≠ .success) :
    ((writeLivescoresM sched new tbl).1 = tbl ∨ (writeLivescoresM sched new tbl).1 = [])
    ∧ ((∀ i, i < 6 → (sched i).1 ≠ GsOutcome.ok) →
        (writeLivescoresM sched new tbl).1 = tbl) := by
  constructor
  · exact retryWrite_fail sched new 6 0 tbl h
  · intro hcl
    exact retryWrite_clear_never_ok sched new 6 0 tbl
      (fun j h1 h2 => hcl j (by omega))

/-- A concrete published row (pre-attempt table) for the C5 inputs. -/
def liveRowA : LiveRow :=
  mkLiveRow "2026-10-12T09:30:00" "2026-10-12" [] "TCS" scoreRowA

/-- A concrete replacement row for the C5 inputs. -/
def liveRowB : LiveRow :=
  mkLiveRow "2026-10-12T10:00:00" "2026-10-12" [baseRowA] "TCS" scoreRowA

/-- C5 counterexample: with every update call failing fatally after a
successful clear, the publish attempt fails fatally yet the previously
published table does not stay intact — it is left empty. -/
theorem c5_counterexample :
    (writeLivescoresM (fun _ => (GsOutcome.ok, GsOutcome.fatalErr)) [liveRowB] [liveRowA]).2
      = WriteOutcome.fatal
    ∧ (writeLivescoresM (fun _ => (GsOutcome.ok, GsOutcome.fatalErr)) [liveRowB] [liveRowA]).1
      = []
    ∧ ([liveRowA] : List LiveRow) ≠ [] := by
  refine ⟨rfl, rfl, ?_⟩
  simp

/-- Witness for C5 (amended) at a schedule whose clears always fail
transiently: the attempt exhausts its retries and the table is intact. -/
theorem c5_failed_publish_no_partial_write_witness :
    ((writeLivescoresM (fun _ => (GsOutcome.transientErr, GsOutcome.ok)) [liveRowB] [liveRowA]).1
        = [liveRowA]
      ∨ (writeLivescoresM (fun _ => (GsOutcome.transientErr, GsOutcome.ok)) [liveRowB] [liveRowA]).1
        = [])
    ∧ ((∀ i, i < 6 → ((fun (_ : ℕ) => (GsOutcome.transientErr, GsOutcome.ok)) i).1 ≠ GsOutcome.ok) →
        (writeLivescoresM (fun _ => (GsOutcome.transientErr, GsOutcome.ok)) [liveRowB] [liveRowA]).1
          = [liveRowA]) :=
  c5_failed_publish_no_partial_write (fun _ => (GsOutcome.transientErr, GsOutcome.ok))
    [liveRowB] [liveRowA] (by decide)

/-!
The freshness badge of the dashboard (`app.py`,
`_compute_freshness_badge`).  Timestamps are seconds (rationals); the
badge text carries the label name and the formatted age, modelled by the
label constructor plus the colour string the source returns.
-/

inductive FreshLabel where
  | live
  | late
  | stale
  | unknown
deriving DecidableEq, Repr

/-- `_compute_freshness_badge(as_of)`: UNKNOWN for a missing or
unparseable timestamp, otherwise LIVE (≤ 5 min), LATE (≤ 15 min) or
STALE by the age in minutes at the current time `now`. -/
def computeFreshnessBadge (asOf : Option ℚ) (now : ℚ) : FreshLabel × String :=
  match asOf with
  | none => (.unknown, "gray")
  | some a =>
    if (now - a) / 60 ≤ 5 then (.live, "green")
    else if (now - a) / 60 ≤ 15 then (.late, "orange")
    else (.stale, "red")

/-- Position of a label along the aging chain. -/
def freshRank : FreshLabel → ℕ
  | .live => 0
  | .late => 1
  | .stale => 2
  | .unknown => 3

/-- C8 (amended): for a fixed parseable AsOf timestamp and the fixed
thresholds, the badge label moves only forward through
LIVE → LATE → STALE as the current time increases and never reverses;
the UNKNOWN label occurs exactly when no parseable timestamp exists and
is then constant over time. -/
theorem c8_freshness_monotone (a t1 t2 : ℚ) (h : t1 ≤ t2) :
    freshRank (computeFreshnessBadge (some a) t1).1
      ≤ freshRank (computeFreshnessBadge (some a) t2).1
    ∧ (computeFreshnessBadge (some a) t1).1 ≠ FreshLabel.unknown
    ∧ (computeFreshnessBadge none t1).1 = FreshLabel.unknown := by
  have hage : (t1 - a) / 60 ≤ (t2 - a) / 60 := by linarith
  refine ⟨?_, ?_, rfl⟩
  · dsimp only [computeFreshnessBadge]
    split_ifs <;> simp [freshRank] <;> linarith
  · dsimp only [computeFreshnessBadge]
    split_ifs <;> simp

/-- Witness for C8 (amended): ages of 1 and 60 minutes. -/
theorem c8_freshness_monotone_witness :
    freshRank (computeFreshnessBadge (some 0) 60).1
      ≤ freshRank (computeFreshnessBadge (some 0) 3600).1
    ∧ (computeFreshnessBadge (some 0) 60).1 ≠ FreshLabel.unknown
    ∧ (computeFreshnessBadge none 60).1 = FreshLabel.unknown :=
  c8_freshness_monotone 0 60 3600 (by norm_num)

/-- C8 counterexample: ten minutes after a parseable AsOf the label is
LATE — a state outside the claimed OK → STALE → UNKNOWN chain — and even
at an age of over a year the label is STALE, never UNKNOWN: the claimed
chain does not describe the code's transitions. -/
theorem c8_counterexample :
    (computeFreshnessBadge (some 0) 600).1 = FreshLabel.late
    ∧ (computeFreshnessBadge (some 0) 600).1 ≠ FreshLabel.live
    ∧ (computeFreshnessBadge (some 0) 600).1 ≠ FreshLabel.stale
    ∧ (computeFreshnessBadge (some 0) 600).1 ≠ FreshLabel.unknown
    ∧ (computeFreshnessBadge (some 0) 100000000).1 = FreshLabel.stale := by
  decide
